import Mathlib

/-!
Shallow embedding of the zellij client-side input pipeline
(src/zellij-client/src/input_handler.rs, src/zellij-utils/src/input/mod.rs,
src/zellij-utils/src/input/mouse.rs).

Rust `panic!` / `todo!` / `unimplemented!` are modelled by the `Aborts`
result type: `.aborted msg` marks a process abort with the panic message,
`.ok` a normal result.  Side effects (IPC sends, the blocking gate, the
client-instruction channel, the mouse-hold repeater) are modelled as an
emitted trace of `Effect`s, in program order.
-/

namespace Zellij

/-- Result of running a piece of code that may abort the process
(Rust `panic!` / `todo!` / `unimplemented!`). -/
inductive Aborts (α : Type) where
  | ok (a : α)
  | aborted (msg : String)
deriving DecidableEq, Repr

/-- Sequencing in the presence of aborts: an abort propagates (the process
dies), a normal result flows into the continuation. -/
def Aborts.bind {α β : Type} : Aborts α → (α → Aborts β) → Aborts β
  | .aborted msg, _ => .aborted msg
  | .ok a, f => f a

/-- `InputMode` from zellij-tile data (variant set as listed in the spec and
used by `get_mode_info` in src/zellij-utils/src/input/mod.rs). -/
inductive InputMode where
  | Normal
  | Locked
  | Resize
  | Pane
  | Tab
  | Scroll
  | RenameTab
  | Session
deriving DecidableEq, Repr

/-- `Key` from zellij-tile data: exactly the variants produced by
`cast_crossterm_key_code` / `cast_crossterm_key` in src/zellij-utils/src/input/mod.rs. -/
inductive Key where
  | Backspace
  | Left
  | Right
  | Up
  | Down
  | Home
  | End
  | PageUp
  | PageDown
  | BackTab
  | Delete
  | Insert
  | F (n : Nat)
  | Char (c : Char)
  | Null
  | Esc
  | Ctrl (c : Char)
  | Alt (c : Char)
deriving DecidableEq, Repr

/-- crossterm's `KeyCode` (the variants matched in `cast_crossterm_key_code`). -/
inductive KeyCode where
  | Backspace
  | Enter
  | Left
  | Right
  | Up
  | Down
  | Home
  | End
  | PageUp
  | PageDown
  | Tab
  | BackTab
  | Delete
  | Insert
  | F (n : Nat)
  | Char (c : Char)
  | Null
  | Esc
deriving DecidableEq, Repr

/-- crossterm's `KeyModifiers` bitflags: NONE = 0, SHIFT = 1, CONTROL = 2, ALT = 4.
A raw modifier mask is a `Nat`. -/
def KeyModifiers.NONE : Nat := 0

def KeyModifiers.SHIFT : Nat := 1

def KeyModifiers.CONTROL : Nat := 2

def KeyModifiers.ALT : Nat := 4

/-- crossterm's `KeyEvent`: a key code plus a modifier mask. -/
structure KeyEvent where
  code : KeyCode
  modifiers : Nat
deriving DecidableEq, Repr

/-- `cast_crossterm_key_code` (src/zellij-utils/src/input/mod.rs lines 105-127):
total mapping from a crossterm `KeyCode` to a `Key`.  Enter and Tab decode to
`Char '\n'` and `Char '\t'`. -/
def cast_crossterm_key_code : KeyCode → Key
  | .Backspace => .Backspace
  | .Enter => .Char '\n'
  | .Left => .Left
  | .Right => .Right
  | .Up => .Up
  | .Down => .Down
  | .Home => .Home
  | .End => .End
  | .PageUp => .PageUp
  | .PageDown => .PageDown
  | .Tab => .Char '\t'
  | .BackTab => .BackTab
  | .Delete => .Delete
  | .Insert => .Insert
  | .F n => .F n
  | .Char c => .Char c
  | .Null => .Null
  | .Esc => .Esc

/-- `cast_crossterm_key` (src/zellij-utils/src/input/mod.rs lines 86-103):
decodes a raw key event.  The Rust match on `event.modifiers` compares
against the exact bitflag constants; `unimplemented!` arms abort. -/
def cast_crossterm_key (event : KeyEvent) : Aborts Key :=
  let key := cast_crossterm_key_code event.code
  if event.modifiers = KeyModifiers.NONE then .ok key
  else if event.modifiers = KeyModifiers.SHIFT then .ok key
  else if event.modifiers = KeyModifiers.CONTROL then
    match key with
    | .Char c => .ok (.Ctrl c)
    | _ => .aborted "Unexpected modified event"
  else if event.modifiers = KeyModifiers.ALT then
    match key with
    | .Char c => .ok (.Alt c)
    | _ => .aborted "Unexpected modified event"
  else .aborted "Unhandled modifier combination"

/-- `Position` (zellij-utils/src/position.rs, not in src/).  Modelled from the
spec: zero-based (row, column); the `From` impl in mouse.rs builds it with
`Position::new(line, column)` where `line` is an `i32` and `column` a `usize`. -/
structure Position where
  line : Int
  column : Nat
deriving DecidableEq, Repr

/-- Modelled from the spec: `Position::new` (position.rs is not in src/) is the
plain constructor taking the zero-based row then column. -/
def Position.new (line : Int) (column : Nat) : Position :=
  { line := line, column := column }

/-- `MouseButton` (src/zellij-utils/src/input/mouse.rs lines 53-69). -/
inductive MouseButton where
  | Left
  | Right
  | Middle
  | WheelUp
  | WheelDown
deriving DecidableEq, Repr

/-- `MouseEvent` (src/zellij-utils/src/input/mouse.rs lines 6-20). -/
inductive MouseEvent where
  | Press (button : MouseButton) (position : Position)
  | Release (position : Position)
  | Hold (position : Position)
deriving DecidableEq, Repr

/-- crossterm's `MouseButton`. -/
inductive CTMouseButton where
  | Left
  | Right
  | Middle
deriving DecidableEq, Repr

/-- crossterm's `MouseEventKind`. -/
inductive MouseEventKind where
  | Down (button : CTMouseButton)
  | Up (button : CTMouseButton)
  | Drag (button : CTMouseButton)
  | Moved
  | ScrollDown
  | ScrollUp
deriving DecidableEq, Repr

/-- crossterm's `MouseEvent`: kind plus one-based u16 coordinates (modelled as
`Nat`) and a modifier mask (unused by the decoder). -/
structure CTMouseEvent where
  kind : MouseEventKind
  column : Nat
  row : Nat
  modifiers : Nat
deriving DecidableEq, Repr

/-- `From<crossterm::event::MouseButton> for MouseButton`
(src/zellij-utils/src/input/mouse.rs lines 71-80). -/
def MouseButton.fromCT : CTMouseButton → MouseButton
  | .Left => .Left
  | .Right => .Right
  | .Middle => .Middle

/-- `From<crossterm::event::MouseEvent> for MouseEvent`
(src/zellij-utils/src/input/mouse.rs lines 22-51).  Every produced position is
`Position::new((y.saturating_sub(1)) as i32, x.saturating_sub(1))`; on `Nat`,
truncated subtraction `y - 1` is exactly `saturating_sub`.  The `Moved` arm is
`todo!()` and aborts. -/
def MouseEvent.fromCrossterm (event : CTMouseEvent) : Aborts MouseEvent :=
  let x := event.column
  let y := event.row
  match event.kind with
  | .Down button =>
      .ok (.Press (MouseButton.fromCT button) (Position.new ((y - 1 : Nat) : Int) (x - 1)))
  | .Up _ =>
      .ok (.Release (Position.new ((y - 1 : Nat) : Int) (x - 1)))
  | .Drag _ =>
      .ok (.Hold (Position.new ((y - 1 : Nat) : Int) (x - 1)))
  | .Moved => .aborted "not yet implemented"
  | .ScrollDown =>
      .ok (.Press .WheelDown (Position.new ((y - 1 : Nat) : Int) (x - 1)))
  | .ScrollUp =>
      .ok (.Press .WheelUp (Position.new ((y - 1 : Nat) : Int) (x - 1)))

/-- The position carried by a decoded mouse event. -/
def MouseEvent.position : MouseEvent → Position
  | .Press _ p => p
  | .Release p => p
  | .Hold p => p

/-- `Action` (zellij-utils/src/input/actions.rs, not in src/).  The variant set
is the one special-cased or constructed in src/zellij-client/src/input_handler.rs;
per the spec all remaining variants are forwarded unconditionally, so they are
collapsed into `other`, and payloads not visible in src/ are modelled as opaque
`Nat`s. -/
inductive Action where
  | Quit
  | Detach
  | SwitchToMode (mode : InputMode)
  | CloseFocus
  | NewPane (payload : Nat)
  | NewTab (payload : Nat)
  | GoToNextTab
  | GoToPreviousTab
  | CloseTab
  | GoToTab (n : Nat)
  | ToggleTab
  | MoveFocusOrTab (payload : Nat)
  | Write (bytes : List Nat)
  | ScrollUpAt (position : Position)
  | ScrollDownAt (position : Position)
  | LeftClick (position : Position)
  | MouseRelease (position : Position)
  | MouseHold (position : Position)
  | other (tag : Nat)
deriving DecidableEq, Repr

/-- The structural (blocking-gate) action class: exactly the constructors of the
third arm of the match in `dispatch_action`
(src/zellij-client/src/input_handler.rs lines 162-170). -/
def Action.isStructural : Action → Bool
  | .CloseFocus | .NewPane _ | .NewTab _ | .GoToNextTab | .GoToPreviousTab
  | .CloseTab | .GoToTab _ | .ToggleTab | .MoveFocusOrTab _ => true
  | _ => false

/-- Observable side effects of the input handler, in program order:
- `engageGate` models `self.command_is_executing.blocking_input_thread()`;
- `sendToServer a` models `self.os_input.send_to_server(ClientToServerMsg::Action(a))`;
- `waitGateRelease` models `self.command_is_executing.wait_until_input_thread_is_unblocked()`
  (the call returns only once the release is observed);
- `sendClientExit` models `self.send_client_instructions.send(ClientInstruction::Exit(ExitReason::Normal))`;
- `startActionRepeater a` models `self.os_input.start_action_repeater(a)`. -/
inductive Effect where
  | engageGate
  | sendToServer (action : Action)
  | waitGateRelease
  | sendClientExit
  | startActionRepeater (action : Action)
deriving DecidableEq, Repr

/-- Result of one `dispatch_action` call: the new mode mirror, the effect trace
emitted during the call, and the returned boolean (`should_break`). -/
structure DispatchResult where
  mode : InputMode
  effects : List Effect
  should_break : Bool
deriving DecidableEq, Repr

/-- `InputHandler::dispatch_action` (src/zellij-client/src/input_handler.rs
lines 147-183).  `mode` is the handler's current mode mirror (`self.mode`);
the capability handles (`os_input`, `command_is_executing`,
`send_client_instructions`) are modelled by the effect trace. -/
def dispatch_action (mode : InputMode) (action : Action) : DispatchResult :=
  match action with
  | .Quit | .Detach =>
      { mode := mode,
        effects := [.sendToServer action, .sendClientExit],
        should_break := true }
  | .SwitchToMode m =>
      { mode := m,
        effects := [.sendToServer action],
        should_break := false }
  | .CloseFocus | .NewPane _ | .NewTab _ | .GoToNextTab | .GoToPreviousTab
  | .CloseTab | .GoToTab _ | .ToggleTab | .MoveFocusOrTab _ =>
      { mode := mode,
        effects := [.engageGate, .sendToServer action, .waitGateRelease],
        should_break := false }
  | _ =>
      { mode := mode,
        effects := [.sendToServer action],
        should_break := false }

/-- Sequential dispatch of a list of actions, as done by the `for` loop in
`handle_key`: the mode mirror is threaded through, effect traces are
concatenated in order, and the stop signal is the disjunction of the returned
booleans. -/
def dispatch_all (mode : InputMode) : List Action → DispatchResult
  | [] => { mode := mode, effects := [], should_break := false }
  | action :: rest =>
      let r := dispatch_action mode action
      let rs := dispatch_all r.mode rest
      { mode := rs.mode,
        effects := r.effects ++ rs.effects,
        should_break := r.should_break || rs.should_break }

/-- Modelled from the spec: the keybinding table (`Keybinds`, keybinds.rs is
not in src/): a read-only mapping from (InputMode, Key) to an ordered sequence
of Action; absent entries resolve to the empty sequence. -/
def Keybinds : Type := InputMode → Key → List Action

/-- Modelled from the spec: `Keybinds::key_to_actions` (keybinds.rs is not in
src/) is a pure, side-effect-free lookup of the (mode, key) entry. -/
def Keybinds.key_to_actions (key : Key) (mode : InputMode) (keybinds : Keybinds) :
    List Action :=
  keybinds mode key

/-- The `InputHandler` state owned by the input thread
(src/zellij-client/src/input_handler.rs lines 24-34): the mode mirror and the
two flags.  The capability handles (`os_input`, `config.keybinds`, `options`,
`command_is_executing`, `send_client_instructions`) are modelled as parameters
and effect traces. -/
structure InputHandler where
  mode : InputMode
  should_exit : Bool
  pasting : Bool
deriving DecidableEq, Repr

/-- `InputHandler::new` (src/zellij-client/src/input_handler.rs lines 38-56):
starts in the given mode with `should_exit = false` and `pasting = false`. -/
def InputHandler.new (mode : InputMode) : InputHandler :=
  { mode := mode, should_exit := false, pasting := false }

/-- The keybinding-resolution path of `handle_key` (the `else` branch,
src/zellij-client/src/input_handler.rs lines 102-109): resolve the key against
the table at the current mode and dispatch each action in order, latching
`should_exit` when any dispatch returns true. -/
def handle_key_resolution (keybinds : Keybinds) (st : InputHandler) (key : Key) :
    InputHandler × List Effect :=
  let r := dispatch_all st.mode (Keybinds.key_to_actions key st.mode keybinds)
  ({ st with mode := r.mode, should_exit := st.should_exit || r.should_break },
   r.effects)

/-- `InputHandler::handle_key` (src/zellij-client/src/input_handler.rs
lines 92-110).  When `pasting` is set and the mode is `Normal` or `Locked`,
the source evaluates `Action::Write(todo!())`, which aborts before any
dispatch; in any other mode while pasting it does nothing. -/
def handle_key (keybinds : Keybinds) (st : InputHandler) (key : Key) :
    Aborts (InputHandler × List Effect) :=
  if st.pasting then
    if st.mode = InputMode.Normal ∨ st.mode = InputMode.Locked then
      .aborted "not yet implemented"
    else
      .ok (st, [])
  else
    .ok (handle_key_resolution keybinds st key)

/-- `InputHandler::handle_mouse_event` (src/zellij-client/src/input_handler.rs
lines 111-134).  The boolean returned by `dispatch_action` is dropped here
(`should_exit` is never set); `Press` with `Right`/`Middle` falls into the
empty `_ => {}` arm; `Hold` dispatches `MouseHold` once, then calls
`start_action_repeater` with the same action. -/
def handle_mouse_event (st : InputHandler) (mouse_event : MouseEvent) :
    InputHandler × List Effect :=
  match mouse_event with
  | .Press button point =>
      match button with
      | .WheelUp =>
          let r := dispatch_action st.mode (.ScrollUpAt point)
          ({ st with mode := r.mode }, r.effects)
      | .WheelDown =>
          let r := dispatch_action st.mode (.ScrollDownAt point)
          ({ st with mode := r.mode }, r.effects)
      | .Left =>
          let r := dispatch_action st.mode (.LeftClick point)
          ({ st with mode := r.mode }, r.effects)
      | _ => (st, [])
  | .Release point =>
      let r := dispatch_action st.mode (.MouseRelease point)
      ({ st with mode := r.mode }, r.effects)
  | .Hold point =>
      let r := dispatch_action st.mode (.MouseHold point)
      ({ st with mode := r.mode },
       r.effects ++ [.startActionRepeater (.MouseHold point)])

/-- A raw crossterm event as read by the loop in `handle_input`. -/
inductive CTEvent where
  | key (event : KeyEvent)
  | mouse (event : CTMouseEvent)
  | resize (cols rows : Nat)
deriving DecidableEq, Repr

/-- One iteration body of the `loop` in `InputHandler::handle_input`
(src/zellij-client/src/input_handler.rs lines 76-89): decode then handle.
The `Event::Resize` arm is `todo!()` and aborts. -/
def handle_event (keybinds : Keybinds) (st : InputHandler) :
    CTEvent → Aborts (InputHandler × List Effect)
  | .key e => (cast_crossterm_key e).bind fun k => handle_key keybinds st k
  | .mouse e =>
      (MouseEvent.fromCrossterm e).bind fun me => .ok (handle_mouse_event st me)
  | .resize _ _ => .aborted "not yet implemented"

/-- `InputHandler::handle_input` (src/zellij-client/src/input_handler.rs
lines 60-91), run over a finite stream of raw events: at the top of each
iteration the loop breaks when `should_exit` is set, otherwise it reads one
event and handles it.  (The one-time `enable_mouse` prologue guarded by
`options.disable_mouse_mode` touches only code outside src/ and no claim;
it is omitted.)  An exhausted stream models the loop being stopped
externally; an abort anywhere aborts the whole run. -/
def handle_input (keybinds : Keybinds) (st : InputHandler) :
    List CTEvent → Aborts (InputHandler × List Effect)
  | [] => .ok (st, [])
  | e :: rest =>
      if st.should_exit then .ok (st, [])
      else
        (handle_event keybinds st e).bind fun r =>
          (handle_input keybinds r.1 rest).bind fun r2 =>
            .ok (r2.1, r.2 ++ r2.2)

/-- Modelled from the spec: the mouse-hold repeater state kept by the os-API
collaborator (`ClientOsApi::start_action_repeater`, os_input_output.rs, is not
in src/).  Per the spec, exactly one repeater may be active at a time
(`startActionRepeater` replaces any active one) and the repeater is cancelled
solely by the `Release` event (observed here as the dispatch of the
`MouseRelease` action that `Release` handling emits); repeats of the held
action can be emitted only while a repeater is active. -/
def repeater_step (r : Option Action) (e : Effect) : Option Action :=
  match e with
  | .startActionRepeater a => some a
  | .sendToServer (.MouseRelease _) => none
  | _ => r

/-- The repeater state after the os-API collaborator observes a trace of
effects, in order. -/
def repeater_after (r : Option Action) (trace : List Effect) : Option Action :=
  trace.foldl repeater_step r

/-- A concrete keybinding table with no bindings at all. -/
def kbEmpty : Keybinds := fun _ _ => []

/-- A concrete keybinding table binding `q` in `Normal` mode to `Quit`. -/
def kbQuit : Keybinds := fun mode key =>
  match mode, key with
  | .Normal, .Char 'q' => [.Quit]
  | _, _ => []

theorem handle_input_stopped (keybinds : Keybinds) (st : InputHandler)
    (events : List CTEvent) (h : st.should_exit = true) :
    handle_input keybinds st events = .ok (st, []) := by
  cases events with
  | nil => rfl
  | cons e rest => simp [handle_input, h]

/-- Claim C1: for every structural action, `dispatch_action` engages the
blocking gate, then sends the action to the server, then blocks until the gate
is released, in exactly that order; and when further actions are dispatched
after it, all of their effects come after the release is observed. -/
theorem dispatch_structural_gate_order (mode : InputMode) (a : Action)
    (h : a.isStructural = true) :
    (dispatch_action mode a).effects =
      [Effect.engageGate, Effect.sendToServer a, Effect.waitGateRelease] ∧
    ∀ rest : List Action,
      (dispatch_all mode (a :: rest)).effects =
        Effect.engageGate :: Effect.sendToServer a :: Effect.waitGateRelease ::
          (dispatch_all mode rest).effects := by
  cases a <;> simp_all [Action.isStructural, dispatch_action, dispatch_all]

/-- Witness for C1 at `CloseFocus` followed by `Quit`. -/
theorem dispatch_structural_gate_order_witness :
    (dispatch_action InputMode.Normal Action.CloseFocus).effects =
      [Effect.engageGate, Effect.sendToServer Action.CloseFocus,
       Effect.waitGateRelease] ∧
    (dispatch_all InputMode.Normal [Action.CloseFocus, Action.Quit]).effects =
      Effect.engageGate :: Effect.sendToServer Action.CloseFocus ::
        Effect.waitGateRelease ::
        (dispatch_all InputMode.Normal [Action.Quit]).effects :=
  ⟨(dispatch_structural_gate_order InputMode.Normal Action.CloseFocus
      (by decide)).1,
   (dispatch_structural_gate_order InputMode.Normal Action.CloseFocus
      (by decide)).2 [Action.Quit]⟩

/-- Claim C2: dispatching `Quit` or `Detach` in every mode sends the action to
the server, then emits exactly one session-ending client notification, and
returns `true`; every other action returns `false` and emits no such
notification; a key whose dispatches signal stop leaves `should_exit` set, and
the event loop consumes no further event once the handled event left
`should_exit` set. -/
theorem dispatch_quit_detach_exit :
    (∀ mode : InputMode,
      dispatch_action mode Action.Quit =
        { mode := mode,
          effects := [Effect.sendToServer Action.Quit, Effect.sendClientExit],
          should_break := true } ∧
      dispatch_action mode Action.Detach =
        { mode := mode,
          effects := [Effect.sendToServer Action.Detach, Effect.sendClientExit],
          should_break := true }) ∧
    (∀ (mode : InputMode) (a : Action), a ≠ Action.Quit → a ≠ Action.Detach →
      (dispatch_action mode a).should_break = false ∧
      (dispatch_action mode a).effects.count Effect.sendClientExit = 0) ∧
    (∀ (keybinds : Keybinds) (st : InputHandler) (key : Key),
      st.pasting = false →
      (dispatch_all st.mode
          (Keybinds.key_to_actions key st.mode keybinds)).should_break = true →
      handle_key keybinds st key =
        Aborts.ok (handle_key_resolution keybinds st key) ∧
      (handle_key_resolution keybinds st key).1.should_exit = true) ∧
    (∀ (keybinds : Keybinds) (st st1 : InputHandler) (e : CTEvent)
        (effects : List Effect) (rest : List CTEvent),
      st.should_exit = false →
      handle_event keybinds st e = Aborts.ok (st1, effects) →
      st1.should_exit = true →
      handle_input keybinds st (e :: rest) = Aborts.ok (st1, effects)) := by
  refine ⟨fun mode => ⟨rfl, rfl⟩, ?_, ?_, ?_⟩
  · intro mode a h1 h2
    cases a <;> simp_all [dispatch_action, List.count_cons]
  · intro keybinds st key hp hb
    refine ⟨by simp [handle_key, hp], ?_⟩
    simp [handle_key_resolution, hb]
  · intro keybinds st st1 e effects rest h0 h1 h2
    simp only [handle_input, h0, Bool.false_eq_true, if_false, h1,
      Aborts.bind, handle_input_stopped keybinds st1 rest h2,
      List.append_nil]

/-- Witness for C2: a non-Quit action, a `q`→`Quit` binding in Normal mode,
and a two-event stream of which only the first is consumed. -/
theorem dispatch_quit_detach_exit_witness :
    ((dispatch_action InputMode.Normal Action.CloseTab).should_break = false ∧
     (dispatch_action InputMode.Normal Action.CloseTab).effects.count
        Effect.sendClientExit = 0) ∧
    (handle_key_resolution kbQuit (InputHandler.new InputMode.Normal)
        (Key.Char 'q')).1.should_exit = true ∧
    handle_input kbQuit (InputHandler.new InputMode.Normal)
        [CTEvent.key { code := KeyCode.Char 'q', modifiers := KeyModifiers.NONE },
         CTEvent.key { code := KeyCode.Char 'q', modifiers := KeyModifiers.NONE }] =
      Aborts.ok
        ({ mode := InputMode.Normal, should_exit := true, pasting := false },
         [Effect.sendToServer Action.Quit, Effect.sendClientExit]) :=
  ⟨dispatch_quit_detach_exit.2.1 InputMode.Normal Action.CloseTab
      (by decide) (by decide),
   (dispatch_quit_detach_exit.2.2.1 kbQuit (InputHandler.new InputMode.Normal)
      (Key.Char 'q') rfl (by decide)).2,
   dispatch_quit_detach_exit.2.2.2 kbQuit (InputHandler.new InputMode.Normal)
      { mode := InputMode.Normal, should_exit := true, pasting := false }
      (CTEvent.key { code := KeyCode.Char 'q', modifiers := KeyModifiers.NONE })
      [Effect.sendToServer Action.Quit, Effect.sendClientExit]
      [CTEvent.key { code := KeyCode.Char 'q', modifiers := KeyModifiers.NONE }]
      rfl rfl rfl⟩

/-- Claim C3: dispatching `SwitchToMode m` sets the mode mirror to `m`, and
dispatching any other action leaves the mode mirror unchanged. -/
theorem switch_to_mode_updates_mirror :
    (∀ (mode m : InputMode),
      (dispatch_action mode (Action.SwitchToMode m)).mode = m) ∧
    (∀ (mode : InputMode) (a : Action), (∀ m, a ≠ Action.SwitchToMode m) →
      (dispatch_action mode a).mode = mode) := by
  refine ⟨fun mode m => rfl, ?_⟩
  intro mode a h
  cases a <;> first | rfl | exact absurd rfl (h _)

/-- Witness for C3 at `SwitchToMode Pane` and at `Quit`. -/
theorem switch_to_mode_updates_mirror_witness :
    (dispatch_action InputMode.Normal
        (Action.SwitchToMode InputMode.Pane)).mode = InputMode.Pane ∧
    (dispatch_action InputMode.Pane Action.Quit).mode = InputMode.Pane :=
  ⟨switch_to_mode_updates_mirror.1 InputMode.Normal InputMode.Pane,
   switch_to_mode_updates_mirror.2 InputMode.Pane Action.Quit
      (fun _ h => Action.noConfusion h)⟩

/-- Counterexample to claim C4 as stated: decoding Ctrl combined with the
non-Char `Left` key does not yield a defined no-key result — it aborts the
process (the `unimplemented!` arm of `cast_crossterm_key`). -/
theorem ctrl_non_char_aborts_cex :
    cast_crossterm_key
        { code := KeyCode.Left, modifiers := KeyModifiers.CONTROL } =
      Aborts.aborted "Unexpected modified event" := rfl

/-- Claim C4 (amended): Ctrl combined with a Char key decodes to `Ctrl c` and
Alt to `Alt c`; Ctrl or Alt combined with a key that decodes to a non-Char
`Key`, or any modifier mask other than NONE/SHIFT/CONTROL/ALT, aborts the
process (`unimplemented!`) instead of yielding a defined unsupported result. -/
theorem cast_crossterm_key_modifiers :
    (∀ c : Char,
      cast_crossterm_key
          { code := KeyCode.Char c, modifiers := KeyModifiers.CONTROL } =
        Aborts.ok (Key.Ctrl c) ∧
      cast_crossterm_key
          { code := KeyCode.Char c, modifiers := KeyModifiers.ALT } =
        Aborts.ok (Key.Alt c)) ∧
    (∀ code : KeyCode, (∀ c, cast_crossterm_key_code code ≠ Key.Char c) →
      cast_crossterm_key { code := code, modifiers := KeyModifiers.CONTROL } =
        Aborts.aborted "Unexpected modified event" ∧
      cast_crossterm_key { code := code, modifiers := KeyModifiers.ALT } =
        Aborts.aborted "Unexpected modified event") ∧
    (∀ (code : KeyCode) (mods : Nat),
      mods ≠ KeyModifiers.NONE → mods ≠ KeyModifiers.SHIFT →
      mods ≠ KeyModifiers.CONTROL → mods ≠ KeyModifiers.ALT →
      cast_crossterm_key { code := code, modifiers := mods } =
        Aborts.aborted "Unhandled modifier combination") := by
  refine ⟨fun c => ⟨rfl, rfl⟩, ?_, ?_⟩
  · intro code h
    cases code <;> first
      | exact ⟨rfl, rfl⟩
      | exact absurd rfl (h _)
  · intro code mods h1 h2 h3 h4
    simp only [KeyModifiers.NONE, KeyModifiers.SHIFT, KeyModifiers.CONTROL,
      KeyModifiers.ALT] at h1 h2 h3 h4
    simp [cast_crossterm_key, KeyModifiers.NONE, KeyModifiers.SHIFT,
      KeyModifiers.CONTROL, KeyModifiers.ALT, h1, h2, h3, h4]

/-- Witness for C4 (amended): Ctrl+`a`, Alt on the Up key, and the
Shift+Ctrl mask 3. -/
theorem cast_crossterm_key_modifiers_witness :
    cast_crossterm_key
        { code := KeyCode.Char 'a', modifiers := KeyModifiers.CONTROL } =
      Aborts.ok (Key.Ctrl 'a') ∧
    cast_crossterm_key { code := KeyCode.Up, modifiers := KeyModifiers.ALT } =
      Aborts.aborted "Unexpected modified event" ∧
    cast_crossterm_key { code := KeyCode.Char 'a', modifiers := 3 } =
      Aborts.aborted "Unhandled modifier combination" :=
  ⟨(cast_crossterm_key_modifiers.1 'a').1,
   (cast_crossterm_key_modifiers.2.1 KeyCode.Up
      (fun _ h => Key.noConfusion h)).2,
   cast_crossterm_key_modifiers.2.2 (KeyCode.Char 'a') 3
      (by decide) (by decide) (by decide) (by decide)⟩

/-- Claim C5: a `Hold` mouse event dispatches the `MouseHold` action exactly
once, immediately, and then starts the repeater; a subsequent `Release` event
dispatches only `MouseRelease`, after which the repeater is cancelled, and a
trace containing no further repeater start keeps zero repeats possible. -/
theorem mouse_hold_repeater_cancel (st : InputHandler) (p q : Position)
    (r : Option Action) :
    (handle_mouse_event st (MouseEvent.Hold p)).2 =
      [Effect.sendToServer (Action.MouseHold p),
       Effect.startActionRepeater (Action.MouseHold p)] ∧
    (handle_mouse_event st (MouseEvent.Hold p)).2.count
        (Effect.sendToServer (Action.MouseHold p)) = 1 ∧
    repeater_after r (handle_mouse_event st (MouseEvent.Hold p)).2 =
      some (Action.MouseHold p) ∧
    (handle_mouse_event (handle_mouse_event st (MouseEvent.Hold p)).1
        (MouseEvent.Release q)).2 =
      [Effect.sendToServer (Action.MouseRelease q)] ∧
    repeater_after r
        ((handle_mouse_event st (MouseEvent.Hold p)).2 ++
         (handle_mouse_event (handle_mouse_event st (MouseEvent.Hold p)).1
            (MouseEvent.Release q)).2) = none ∧
    (∀ trace : List Effect,
      (∀ a, Effect.startActionRepeater a ∈ trace → False) →
      repeater_after none trace = none) := by
  refine ⟨rfl, ?_, rfl, rfl, rfl, ?_⟩
  · simp [handle_mouse_event, dispatch_action, List.count_cons]
  · intro trace
    induction trace with
    | nil => intro _; rfl
    | cons e rest ih =>
        intro htr
        have he : repeater_step none e = none := by
          cases e with
          | startActionRepeater a =>
              exact (htr a (List.mem_cons_self _ _)).elim
          | engageGate => rfl
          | waitGateRelease => rfl
          | sendClientExit => rfl
          | sendToServer a => cases a <;> rfl
        simp only [repeater_after, List.foldl_cons, he]
        exact ih (fun a ha => htr a (List.mem_cons_of_mem _ ha))

/-- Witness for C5: a Hold then Release at concrete positions; a trace with no
repeater start leaves the cancelled repeater cancelled. -/
theorem mouse_hold_repeater_cancel_witness :
    (handle_mouse_event (InputHandler.new InputMode.Normal)
        (MouseEvent.Hold (Position.new 2 3))).2 =
      [Effect.sendToServer (Action.MouseHold (Position.new 2 3)),
       Effect.startActionRepeater (Action.MouseHold (Position.new 2 3))] ∧
    repeater_after none
        ((handle_mouse_event (InputHandler.new InputMode.Normal)
            (MouseEvent.Hold (Position.new 2 3))).2 ++
         (handle_mouse_event
            (handle_mouse_event (InputHandler.new InputMode.Normal)
              (MouseEvent.Hold (Position.new 2 3))).1
            (MouseEvent.Release (Position.new 4 5))).2) = none ∧
    repeater_after none [Effect.sendToServer Action.Quit] = none :=
  ⟨(mouse_hold_repeater_cancel (InputHandler.new InputMode.Normal)
      (Position.new 2 3) (Position.new 4 5) none).1,
   (mouse_hold_repeater_cancel (InputHandler.new InputMode.Normal)
      (Position.new 2 3) (Position.new 4 5) none).2.2.2.2.1,
   (mouse_hold_repeater_cancel (InputHandler.new InputMode.Normal)
      (Position.new 2 3) (Position.new 4 5) none).2.2.2.2.2
      [Effect.sendToServer Action.Quit]
      (by intro a ha; simp at ha)⟩

/-- Claim C6 (failing input): with the pasting flag set and the mode mirror
`Locked` or `Normal`, `handle_key` aborts at `Action::Write(todo!())` instead
of forwarding a `Write` action with the raw bytes; in any other mode while
pasting it produces no action, and in neither case is the keybinding table
consulted. -/
theorem paste_write_branch_aborts :
    handle_key kbEmpty
        { mode := InputMode.Locked, should_exit := false, pasting := true }
        (Key.Char 'a') = Aborts.aborted "not yet implemented" ∧
    handle_key kbEmpty
        { mode := InputMode.Normal, should_exit := false, pasting := true }
        (Key.Char 'a') = Aborts.aborted "not yet implemented" ∧
    handle_key kbEmpty
        { mode := InputMode.Pane, should_exit := false, pasting := true }
        (Key.Char 'a') =
      Aborts.ok
        ({ mode := InputMode.Pane, should_exit := false, pasting := true },
         []) :=
  ⟨rfl, rfl, rfl⟩

/-- Claim C7: every successfully decoded mouse event carries the position
obtained from the one-based raw (column, row) by saturating subtraction of 1
on each component (never negative), and both raw (1,1) and raw (0,0) decode to
`Position (0,0)`. -/
theorem mouse_position_saturating :
    (∀ (e : CTMouseEvent) (ev : MouseEvent),
      MouseEvent.fromCrossterm e = Aborts.ok ev →
      ev.position = Position.new ((e.row - 1 : Nat) : Int) (e.column - 1) ∧
      0 ≤ ev.position.line) ∧
    MouseEvent.fromCrossterm
        { kind := MouseEventKind.Down CTMouseButton.Left, column := 1,
          row := 1, modifiers := 0 } =
      Aborts.ok (MouseEvent.Press MouseButton.Left (Position.new 0 0)) ∧
    MouseEvent.fromCrossterm
        { kind := MouseEventKind.Down CTMouseButton.Left, column := 0,
          row := 0, modifiers := 0 } =
      Aborts.ok (MouseEvent.Press MouseButton.Left (Position.new 0 0)) := by
  refine ⟨?_, rfl, rfl⟩
  rintro ⟨kind, col, row, mods⟩ ev h
  cases kind <;> simp [MouseEvent.fromCrossterm] at h <;>
    simp [← h, MouseEvent.position, Position.new]

/-- Witness for C7: a wheel-up event at raw column 5, row 10 decodes to
`Press WheelUp` at `Position (9, 4)`. -/
theorem mouse_position_saturating_witness :
    (MouseEvent.Press MouseButton.WheelUp (Position.new 9 4)).position =
      Position.new ((10 - 1 : Nat) : Int) (5 - 1) ∧
    0 ≤ (MouseEvent.Press MouseButton.WheelUp (Position.new 9 4)).position.line :=
  mouse_position_saturating.1
    { kind := MouseEventKind.ScrollUp, column := 5, row := 10, modifiers := 0 }
    (MouseEvent.Press MouseButton.WheelUp (Position.new 9 4)) rfl

/-- Counterexample to claim C8 as stated: decoding a `Moved` raw mouse event
does not produce "no event without failing" — it aborts the process
(the `todo!` arm of the decoder). -/
theorem moved_event_aborts_cex :
    MouseEvent.fromCrossterm
        { kind := MouseEventKind.Moved, column := 3, row := 7,
          modifiers := 0 } =
      Aborts.aborted "not yet implemented" := rfl

/-- Claim C8 (amended): for every raw mouse event of kind `Moved`, the decoder
has no mapping and aborts the process (`todo!`); no mouse event is produced. -/
theorem moved_event_aborts (x y m : Nat) :
    MouseEvent.fromCrossterm
        { kind := MouseEventKind.Moved, column := x, row := y,
          modifiers := m } =
      Aborts.aborted "not yet implemented" := rfl

/-- Counterexample to claim C9 as stated: a `Resize` raw event is not left
unprocessed with the loop continuing — handling it aborts the process
(the `todo!` arm of `handle_input`). -/
theorem resize_aborts_cex :
    handle_input kbEmpty (InputHandler.new InputMode.Normal)
        [CTEvent.resize 80 24] =
      Aborts.aborted "not yet implemented" := rfl

/-- Claim C9 (amended): for every raw `Resize` event reaching an active loop,
the event is not processed: the loop aborts (`todo!`), dispatching no action
and consuming no further event. -/
theorem resize_aborts (keybinds : Keybinds) (st : InputHandler)
    (cols rows : Nat) (rest : List CTEvent) (h : st.should_exit = false) :
    handle_input keybinds st (CTEvent.resize cols rows :: rest) =
      Aborts.aborted "not yet implemented" := by
  simp [handle_input, h, handle_event, Aborts.bind]

/-- Witness for C9 (amended) on a fresh handler and a two-event stream. -/
theorem resize_aborts_witness :
    handle_input kbEmpty (InputHandler.new InputMode.Normal)
        [CTEvent.resize 80 24, CTEvent.resize 1 1] =
      Aborts.aborted "not yet implemented" :=
  resize_aborts kbEmpty (InputHandler.new InputMode.Normal) 80 24
    [CTEvent.resize 1 1] rfl

theorem handle_key_pasting (keybinds : Keybinds) (st : InputHandler)
    (key : Key) (st1 : InputHandler) (effects : List Effect)
    (h : handle_key keybinds st key = Aborts.ok (st1, effects)) :
    st1.pasting = st.pasting := by
  unfold handle_key at h
  by_cases hp : st.pasting = true
  · rw [if_pos hp] at h
    by_cases hm : st.mode = InputMode.Normal ∨ st.mode = InputMode.Locked
    · rw [if_pos hm] at h
      exact Aborts.noConfusion h
    · rw [if_neg hm] at h
      injection h with h2
      have e1 : st = st1 := congrArg Prod.fst h2
      rw [← e1]
  · rw [if_neg hp] at h
    injection h with h2
    have e1 : (handle_key_resolution keybinds st key).1 = st1 :=
      congrArg Prod.fst h2
    rw [← e1]
    rfl

theorem handle_mouse_event_pasting (st : InputHandler) (me : MouseEvent) :
    (handle_mouse_event st me).1.pasting = st.pasting := by
  cases me with
  | Press b p => cases b <;> rfl
  | Release p => rfl
  | Hold p => rfl

theorem handle_event_pasting (keybinds : Keybinds) (st : InputHandler)
    (e : CTEvent) (st1 : InputHandler) (effects : List Effect)
    (h : handle_event keybinds st e = Aborts.ok (st1, effects)) :
    st1.pasting = st.pasting := by
  cases e with
  | key ke =>
      simp only [handle_event] at h
      cases hc : cast_crossterm_key ke with
      | aborted msg =>
          rw [hc] at h
          simp only [Aborts.bind] at h
          exact Aborts.noConfusion h
      | ok k =>
          rw [hc] at h
          simp only [Aborts.bind] at h
          exact handle_key_pasting _ _ _ _ _ h
  | mouse me =>
      simp only [handle_event] at h
      cases hc : MouseEvent.fromCrossterm me with
      | aborted msg =>
          rw [hc] at h
          simp only [Aborts.bind] at h
          exact Aborts.noConfusion h
      | ok ev =>
          rw [hc] at h
          simp only [Aborts.bind] at h
          injection h with h2
          have e1 : (handle_mouse_event st ev).1 = st1 :=
            congrArg Prod.fst h2
          rw [← e1]
          exact handle_mouse_event_pasting st ev
  | resize c r => simp [handle_event] at h

theorem handle_input_pasting (keybinds : Keybinds) (events : List CTEvent) :
    ∀ (st st1 : InputHandler) (effects : List Effect),
      handle_input keybinds st events = Aborts.ok (st1, effects) →
      st1.pasting = st.pasting := by
  induction events with
  | nil =>
      intro st st1 effects h
      injection h with h2
      have e1 : st = st1 := congrArg Prod.fst h2
      rw [← e1]
  | cons e rest ih =>
      intro st st1 effects h
      simp only [handle_input] at h
      by_cases hs : st.should_exit = true
      · rw [if_pos hs] at h
        injection h with h2
        have e1 : st = st1 := congrArg Prod.fst h2
        rw [← e1]
      · rw [if_neg hs] at h
        cases he : handle_event keybinds st e with
        | aborted msg =>
            rw [he] at h
            simp only [Aborts.bind] at h
            exact Aborts.noConfusion h
        | ok pr =>
            rw [he] at h
            simp only [Aborts.bind] at h
            cases hi : handle_input keybinds pr.1 rest with
            | aborted msg =>
                rw [hi] at h
                simp only [Aborts.bind] at h
                exact Aborts.noConfusion h
            | ok pr2 =>
                rw [hi] at h
                simp only [Aborts.bind] at h
                injection h with h2
                have e1 : pr2.1 = st1 := congrArg Prod.fst h2
                rw [← e1, ih pr.1 pr2.1 pr2.2 (by rw [hi]),
                  handle_event_pasting keybinds st e pr.1 pr.2 (by rw [he])]

/-- Claim C10: the pasting flag starts false at construction, no handler
operation ever changes it, with it false `handle_key` takes the
keybinding-resolution path, and every run of the event loop from a fresh
handler ends with the flag still false. -/
theorem pasting_never_set :
    (∀ m : InputMode, (InputHandler.new m).pasting = false) ∧
    (∀ (keybinds : Keybinds) (st : InputHandler) (e : CTEvent)
        (st1 : InputHandler) (effects : List Effect),
      handle_event keybinds st e = Aborts.ok (st1, effects) →
      st1.pasting = st.pasting) ∧
    (∀ (keybinds : Keybinds) (st : InputHandler) (key : Key),
      st.pasting = false →
      handle_key keybinds st key =
        Aborts.ok (handle_key_resolution keybinds st key)) ∧
    (∀ (keybinds : Keybinds) (m : InputMode) (events : List CTEvent)
        (st1 : InputHandler) (effects : List Effect),
      handle_input keybinds (InputHandler.new m) events =
        Aborts.ok (st1, effects) →
      st1.pasting = false) := by
  refine ⟨fun m => rfl, handle_event_pasting, ?_, ?_⟩
  · intro keybinds st key hp
    simp [handle_key, hp]
  · intro keybinds m events st1 effects h
    exact handle_input_pasting keybinds events (InputHandler.new m) st1 effects h

/-- Witness for C10: a fresh Normal-mode handler, a concrete mouse event, a
concrete key, and the empty event stream. -/
theorem pasting_never_set_witness :
    (InputHandler.new InputMode.Normal).pasting = false ∧
    (InputHandler.new InputMode.Normal).pasting =
      (InputHandler.new InputMode.Normal).pasting ∧
    handle_key kbEmpty (InputHandler.new InputMode.Normal) (Key.Char 'x') =
      Aborts.ok (handle_key_resolution kbEmpty
        (InputHandler.new InputMode.Normal) (Key.Char 'x')) ∧
    (InputHandler.new InputMode.Normal).pasting = false :=
  ⟨pasting_never_set.1 InputMode.Normal,
   pasting_never_set.2.1 kbEmpty (InputHandler.new InputMode.Normal)
      (CTEvent.mouse
        { kind := MouseEventKind.Down CTMouseButton.Left, column := 1,
          row := 1, modifiers := 0 })
      (InputHandler.new InputMode.Normal)
      [Effect.sendToServer (Action.LeftClick (Position.new 0 0))] rfl,
   pasting_never_set.2.2.1 kbEmpty (InputHandler.new InputMode.Normal)
      (Key.Char 'x') rfl,
   pasting_never_set.2.2.2 kbEmpty InputMode.Normal []
      (InputHandler.new InputMode.Normal) [] rfl⟩

end Zellij
